import Mathlib

/-!
Verification development for the Reversible Image Modification System.

The repository ships the frontend (web_interface) and the requirements
documents; the backend engines (operation codec, variant generation,
reversal/verification, coordination protocol) are described by the design
spec and the SRS but their Python sources are not part of this tree, so
they are modelled here from the spec.  Frontend functions
(`uploadFile`, `formatFileSize`) are embedded directly from
`src/web_interface` JavaScript sources.
-/

/-- A pixel buffer: a flat list of byte values. -/
abbrev Buffer := List Nat

/-- Modelled from the spec: the deterministic seeded mixing function standing
for the seeded pseudo-random number stream that parameter drawing, the XOR
key stream and the block permutation all derive from ("no operation may
depend on external or non-reproducible state"). -/
def mix (seed i : Nat) : Nat :=
  (seed * 1103515245 + i * 12345 + 12345) % 2147483648

/-- Modelled from the spec: one byte of the seeded repeating XOR key stream
of `XorMask{seed, keyLength}` (key repeats with period `keyLength`). -/
def keyByte (seed keyLength i : Nat) : Nat :=
  mix seed (i % keyLength) % 256

/-- Transposition of two naturals, used to build the seeded block permutation. -/
def swapFun (a b i : Nat) : Nat :=
  if i = a then b else if i = b then a else i

/-- Modelled from the spec: the Fisher-Yates swap list of the seeded
pseudo-random permutation of `PermuteBlock{seed, blockSize}` on a block of
`n` indices: position `i` is swapped with a seeded draw from `[0, i]`. -/
def fySwaps (seed n : Nat) : List (Nat × Nat) :=
  (List.range n).map (fun i => (i, mix seed i % (i + 1)))

/-- Apply a swap list left-to-right to one index. -/
def applySwapsFwd (l : List (Nat × Nat)) (i : Nat) : Nat :=
  l.foldl (fun acc p => swapFun p.1 p.2 acc) i

/-- Apply a swap list right-to-left to one index (the inverse direction). -/
def applySwapsRev (l : List (Nat × Nat)) (i : Nat) : Nat :=
  l.foldr (fun p acc => swapFun p.1 p.2 acc) i

/-- Forward within-block index permutation of `PermuteBlock`. -/
def blockPermFwd (seed n i : Nat) : Nat :=
  applySwapsFwd (fySwaps seed n) i

/-- Inverse within-block index permutation of `PermuteBlock`, computable
from the same seed, as the spec requires. -/
def blockPermInv (seed n i : Nat) : Nat :=
  applySwapsRev (fySwaps seed n) i

/-- Lift a within-block index map to the whole buffer: the buffer is cut
into consecutive blocks of `b` indices and `p` acts inside each block. -/
def blockIdx (b : Nat) (p : Nat → Nat) (i : Nat) : Nat :=
  b * (i / b) + p (i % b)

/-- Modelled from the spec: the within-pixel index map of
`ChannelRotate{amount}`: output channel `j` reads input channel
`(j - amount) mod channels`, i.e. values rotate R -> G -> B -> R. -/
def rotIdx (c a i : Nat) : Nat :=
  (i + (c - a % c)) % c

/-- Apply an index map to a buffer: output position `i` holds the input
byte at position `m i`. -/
def permApply (m : Nat → Nat) (l : Buffer) : Buffer :=
  (List.range l.length).map (fun i => l.getD (m i) 0)

/-- Modelled from the spec: `XorMask` application - XOR every byte with the
seeded repeating key stream; self-inverse. -/
def xorApply (seed keyLength : Nat) (l : Buffer) : Buffer :=
  (List.range l.length).map (fun i => l.getD i 0 ^^^ keyByte seed keyLength i)

/-- Modelled from the spec: the closed set of reversible pixel operations.
`PermuteBlock` carries a direction flag so that its inverse (the inverse
permutation, computable from the same seed) is again a member of the set. -/
inductive Operation where
  | permuteBlock (seed blockSize : Nat) (inverted : Bool)
  | xorMask (seed keyLength : Nat)
  | channelRotate (amount : Nat)
deriving DecidableEq

/-- Modelled from the spec: forward application `apply(op, buffer)`.
`channels` is the pixel format's channel count (the buffer's shape). -/
def Operation.apply (channels : Nat) : Operation → Buffer → Buffer
  | .permuteBlock s b inv, l =>
      permApply (blockIdx b (if inv then blockPermInv s b else blockPermFwd s b)) l
  | .xorMask s k, l => xorApply s k l
  | .channelRotate a, l => permApply (blockIdx channels (rotIdx channels a)) l

/-- Modelled from the spec: `invert(op)` - a pure function of the
operation's own parameters.  `PermuteBlock` flips to its inverse
permutation (same seed); `XorMask` is self-inverse; `ChannelRotate`
rotates by `-amount mod channels`. -/
def Operation.invert (channels : Nat) : Operation → Operation
  | .permuteBlock s b inv => .permuteBlock s b (!inv)
  | .xorMask s k => .xorMask s k
  | .channelRotate a => .channelRotate ((channels - a % channels) % channels)

/-- Modelled from the spec: each operation kind's declared parameter domain
for a buffer of `len` bytes: `blockSize` must be positive and evenly divide
the buffer, `keyLength >= 1`, `amount` is unrestricted. -/
def Operation.valid (channels len : Nat) : Operation → Prop
  | .permuteBlock _ b _ => 0 < b ∧ b ∣ len
  | .xorMask _ k => 1 ≤ k
  | .channelRotate _ => True

instance instDecValid (channels len : Nat) : (op : Operation) → Decidable (op.valid channels len)
  | .permuteBlock _ b _ => inferInstanceAs (Decidable (0 < b ∧ b ∣ len))
  | .xorMask _ k => inferInstanceAs (Decidable (1 ≤ k))
  | .channelRotate _ => inferInstanceAs (Decidable True)

/-- Modelled from the spec: apply an Instruction Sequence's operations in
order to a buffer. -/
def applySeq (channels : Nat) (ops : List Operation) (buf : Buffer) : Buffer :=
  ops.foldl (fun b op => op.apply channels b) buf

/-- Modelled from the spec: the reversal of an Instruction Sequence - the
inverses of its operations, in reverse order. -/
def invertSeq (channels : Nat) (ops : List Operation) : List Operation :=
  (ops.map (Operation.invert channels)).reverse

/-- Modelled from the spec: a Variant - the Instruction Sequence that
produced it together with the modified pixel buffer it stores. -/
structure Variant where
  ops : List Operation
  bytes : Buffer
deriving DecidableEq

/-- Modelled from the spec: the Variant produced by applying an Instruction
Sequence to a source buffer - the stored bytes are exactly the forward
application of the sequence. -/
def mkVariantFrom (channels : Nat) (ops : List Operation) (buf : Buffer) : Variant :=
  { ops := ops, bytes := applySeq channels ops buf }

/-- Modelled from the spec: an uploaded Image - dimensions, channel count
and the original pixel buffer. -/
structure Image where
  width : Nat
  height : Nat
  channels : Nat
  bytes : Buffer
deriving DecidableEq

/-- Pixel count of an image. -/
def Image.pixelCount (img : Image) : Nat := img.width * img.height

/-- Modelled from the spec: the fixed lower bound of `opCountRange`
("bounded below by a fixed minimum such as 100"). -/
def minOpCount : Nat := 100

/-- Modelled from the spec: the system default for `variantCount`
("the system default is 100"; SRS: "Generate 100 variants"). -/
def defaultVariantCount : Nat := 100

/-- Modelled from the spec: draw an operation count uniformly from
`opCountRange = [minOpCount, pixelCount]` using the seeded stream. -/
def drawOpCount (seed pixelCount : Nat) : Nat :=
  minOpCount + mix seed 0 % (pixelCount - minOpCount + 1)

/-- Modelled from the spec: draw one Operation from the closed set with
independently seeded parameters.  The drawn `blockSize` is a divisor of
the buffer length (the channel stride or the row stride), so drawn
operations satisfy their declared domain. -/
def drawOp (img : Image) (seed i : Nat) : Operation :=
  match mix seed (3 * i) % 3 with
  | 0 => Operation.permuteBlock (mix seed (3 * i + 1))
      (if mix seed (3 * i + 2) % 2 = 0 then img.channels else img.channels * img.width) false
  | 1 => Operation.xorMask (mix seed (3 * i + 1)) (mix seed (3 * i + 2) % 32 + 1)
  | _ => Operation.channelRotate (mix seed (3 * i + 1) % img.channels)

/-- Modelled from the spec: generate one variant of an image - draw an
operation count from `opCountRange`, draw that many operations, and apply
them in draw order to a copy of the original buffer. -/
def mkVariant (img : Image) (seed : Nat) : Variant :=
  mkVariantFrom img.channels
    ((List.range (drawOpCount seed img.pixelCount)).map (fun i => drawOp img seed i))
    img.bytes

/-- Modelled from the spec: the fixed bound on persistence retries per
variant ("retried up to a fixed bound before the variant is marked failed"). -/
def persistRetryBound : Nat := 3

/-- Modelled from the spec: whether persisting variant `idx` succeeds
within the retry bound, given an oracle telling which attempts succeed. -/
def attemptPersist (persistOk : Nat → Nat → Bool) (idx : Nat) : Bool :=
  (List.range persistRetryBound).any (fun a => persistOk idx a)

/-- Modelled from the spec: the per-variant outcome of a generation run -
either a persisted Variant or a named failed unit ("not silently skipped"). -/
inductive VariantResult where
  | persisted (v : Variant)
  | failed (idx : Nat)
deriving DecidableEq

/-- Whether a generation outcome is a persisted variant. -/
def VariantResult.isPersisted : VariantResult → Bool
  | .persisted _ => true
  | .failed _ => false

/-- Whether a generation outcome is a reported failure. -/
def VariantResult.isFailed : VariantResult → Bool
  | .persisted _ => false
  | .failed _ => true

/-- Modelled from the spec: `generate(image, variantCount, ...)` - one
outcome per requested variant: the variant when persistence succeeds within
the retry bound, a reported failure otherwise. -/
def generate (img : Image) (variantCount seed : Nat) (persistOk : Nat → Nat → Bool) :
    List VariantResult :=
  (List.range variantCount).map (fun idx =>
    if attemptPersist persistOk idx then VariantResult.persisted (mkVariant img (mix seed idx))
    else VariantResult.failed idx)

/-- Modelled from the spec: the error taxonomy entry raised at generation
time for invalid operation parameters. -/
inductive GenError where
  | configurationError
deriving DecidableEq

/-- Modelled from the spec: construct a variant from a given Instruction
Sequence, validating every operation's parameter domain at construction;
a domain violation fails with `ConfigurationError`. -/
def generateVariant (img : Image) (ops : List Operation) : Except GenError Variant :=
  if ops.all (fun op => decide (op.valid img.channels img.bytes.length)) then
    Except.ok (mkVariantFrom img.channels ops img.bytes)
  else Except.error GenError.configurationError

/-- Modelled from the spec: the variants actually persisted by a generation
outcome - nothing is persisted when generation fails. -/
def persistedVariants : Except GenError Variant → List Variant
  | .ok v => [v]
  | .error _ => []

/-- Modelled from the spec: the comparison method declared on a
Verification Record. -/
inductive CompareMethod where
  | exactBytes
  | contentHash
deriving DecidableEq

/-- Modelled from the spec: the reference to the original image available
at verification time - exact bytes, or only a content hash. -/
inductive OriginalRef where
  | exact (bytes : Buffer)
  | hashed (h : Nat)
deriving DecidableEq

/-- Modelled from the spec: the content hash used when only a hash of the
original is retained. -/
def hashBytes (l : Buffer) : Nat :=
  l.foldl (fun h b => (h * 31 + b) % (2 ^ 64)) 5381

/-- Modelled from the spec: `verify(sequence, modifiedBuffer,
originalReference)` - replay the inverse sequence in reverse order, then
compare against the original, recording the comparison method used. -/
def verify (channels : Nat) (ops : List Operation) (modified : Buffer)
    (ref : OriginalRef) : Bool × CompareMethod :=
  let reversed := applySeq channels (invertSeq channels ops) modified
  match ref with
  | .exact b => (decide (reversed = b), CompareMethod.exactBytes)
  | .hashed h => (decide (hashBytes reversed = h), CompareMethod.contentHash)

/-- Modelled from the spec: the verdict of one verification work item. -/
inductive Verdict where
  | verifiedOk
  | verifiedFailed
  | verificationError
deriving DecidableEq

/-- The payload a successful Pull call returns: the Instruction Sequence,
the modified buffer, and the reference to the original. -/
abbrev PullPayload := List Operation × Buffer × OriginalRef

/-- Modelled from the spec: the bound on Pull retries per verification
work item (the scenario retries three times in a row). -/
def pullRetryBound : Nat := 3

/-- First successful result among `n` attempts starting at `start`, given
an oracle of per-attempt Pull outcomes (`none` = timeout). -/
def firstPull (pulls : Nat → Option PullPayload) : Nat → Nat → Option PullPayload
  | _, 0 => none
  | start, n + 1 =>
      match pulls start with
      | some x => some x
      | none => firstPull pulls (start + 1) n

/-- Modelled from the spec: one verification work item - retry Pull up to
the bound; exhausted retries yield `VERIFICATION_ERROR`, a successful Pull
yields the comparison verdict (`VERIFIED_OK` / `VERIFIED_FAILED`). -/
def runVerification (channels : Nat) (pulls : Nat → Option PullPayload) : Verdict :=
  match firstPull pulls 0 pullRetryBound with
  | none => Verdict.verificationError
  | some (ops, modified, ref) =>
      if (verify channels ops modified ref).1 then Verdict.verifiedOk
      else Verdict.verifiedFailed

/-- Modelled from the spec: a Variant's lifecycle status. -/
inductive Status where
  | generated
  | verificationRequested
  | verifiedOk
  | verifiedFailed
  | verificationError
deriving DecidableEq

/-- Whether a status is one of the terminal `VERIFIED_*` statuses. -/
def Status.isVerifiedFinal : Status → Bool
  | .verifiedOk => true
  | .verifiedFailed => true
  | _ => false

/-- The status a reported verdict maps a variant to. -/
def verdictStatus : Verdict → Status
  | .verifiedOk => Status.verifiedOk
  | .verifiedFailed => Status.verifiedFailed
  | .verificationError => Status.verificationError

/-- Modelled from the spec: the Report step of the coordination protocol -
the variant's own status field resolves duplicate messages: a Report for an
already-`VERIFIED_*` variant is idempotently ignored. -/
def applyReport (s : Status) (v : Verdict) : Status :=
  if s.isVerifiedFinal then s else verdictStatus v

/-- Outcome of the frontend `uploadFile` call, embedded from
`src/web_interface` (FileUpload component): whether `onError` was called
and with what message, whether the POST request was issued, and the final
`uploading` state. -/
structure UploadResult where
  errorMsg : Option String
  requestIssued : Bool
  uploading : Bool
deriving DecidableEq

/-- Embedded from `src/web_interface` (FileUpload component, `uploadFile`):
an oversized file reports an error and returns before `setUploading(true)`;
otherwise the request is issued, `uploading` ends false, and a server error
reports its detail (defaulting to a generic message). -/
def uploadFile (fileSize : Nat) (uploading0 : Bool)
    (serverResult : Except (Option String) Unit) : UploadResult :=
  if fileSize > 100 * 1024 * 1024 then
    { errorMsg := some "File size must be less than 100MB"
      requestIssued := false
      uploading := uploading0 }
  else
    match serverResult with
    | .ok _ => { errorMsg := none, requestIssued := true, uploading := false }
    | .error detail =>
        { errorMsg := some (detail.getD "Upload failed")
          requestIssued := true
          uploading := false }

/-- JavaScript falsiness of the `bytes` argument of `formatFileSize`
(`none` models `null`/`undefined`). -/
def jsFalsy : Option Nat → Bool
  | none => true
  | some n => n == 0

/-- The unit labels of `formatFileSize`. -/
def sizeUnits : List String := ["B", "KB", "MB", "GB"]

/-- Decimal rendering of `x100 / 100` with trailing zeros dropped, as
`parseFloat((v).toFixed(2))` renders a two-decimal value. -/
def trimDecimal (x100 : Nat) : String :=
  let ip := x100 / 100
  let fp := x100 % 100
  if fp = 0 then toString ip
  else if fp % 10 = 0 then toString ip ++ "." ++ toString (fp / 10)
  else toString ip ++ "." ++ (if fp < 10 then "0" else "") ++ toString fp

/-- The logarithmic unit computation of `formatFileSize`
(`i = floor(log bytes / log 1024)`, value scaled by `1024 ^ i`). -/
def formatWithUnits (n : Nat) : String :=
  let i := Nat.log 1024 n
  trimDecimal (n * 100 / 1024 ^ i) ++ " " ++ sizeUnits.getD i ""

/-- Embedded from `src/web_interface/static/js/app.js`, `formatFileSize`:
a falsy `bytes` argument short-circuits to `"0 B"`; otherwise the
logarithmic unit computation runs. -/
def formatFileSize (bytes : Option Nat) : String :=
  if jsFalsy bytes then "0 B" else formatWithUnits (bytes.getD 0)

/-- The spec's test scenario source buffer: a 4x4-pixel 3-channel image,
48 bytes. -/
def scenarioBuf : Buffer := List.range 48

/-- A 4x4-pixel 3-channel image used as a concrete instance. -/
def img443 : Image :=
  { width := 4, height := 4, channels := 3, bytes := List.replicate 48 0 }

/-- A 10x10-pixel 3-channel image (pixel count exactly the fixed minimum
operation count) used as a concrete instance. -/
def img1010 : Image :=
  { width := 10, height := 10, channels := 3, bytes := List.replicate 300 0 }

/-- A persistence oracle on which every attempt fails. -/
def allFailPersist : Nat → Nat → Bool := fun _ _ => false

/-- A Pull oracle on which every attempt times out. -/
def noPulls : Nat → Option PullPayload := fun _ => none

/-- A Pull oracle whose first attempt succeeds with a payload whose
reversal mismatches the original. -/
def onePullBad : Nat → Option PullPayload :=
  fun a => if a = 0 then some ([], [0], OriginalRef.exact [1]) else none

theorem swapFun_swapFun (a b i : Nat) : swapFun a b (swapFun a b i) = i := by
  simp only [swapFun]
  split_ifs <;> omega

theorem swapFun_lt {n a b i : Nat} (ha : a < n) (hb : b < n) (hi : i < n) :
    swapFun a b i < n := by
  simp only [swapFun]
  split_ifs <;> omega

theorem applySwapsRev_applySwapsFwd (l : List (Nat × Nat)) :
    ∀ i, applySwapsRev l (applySwapsFwd l i) = i := by
  induction l with
  | nil => intro i; rfl
  | cons p ps ih =>
      intro i
      simp only [applySwapsFwd, applySwapsRev, List.foldl_cons, List.foldr_cons] at ih ⊢
      rw [ih (swapFun p.1 p.2 i)]
      exact swapFun_swapFun p.1 p.2 i

theorem applySwapsFwd_applySwapsRev (l : List (Nat × Nat)) :
    ∀ i, applySwapsFwd l (applySwapsRev l i) = i := by
  induction l with
  | nil => intro i; rfl
  | cons p ps ih =>
      intro i
      simp only [applySwapsFwd, applySwapsRev, List.foldl_cons, List.foldr_cons] at ih ⊢
      rw [swapFun_swapFun p.1 p.2 (List.foldr (fun p acc => swapFun p.1 p.2 acc) i ps)]
      exact ih i

theorem applySwapsFwd_lt {n : Nat} (l : List (Nat × Nat))
    (hl : ∀ p ∈ l, p.1 < n ∧ p.2 < n) : ∀ i, i < n → applySwapsFwd l i < n := by
  induction l with
  | nil => intro i hi; exact hi
  | cons p ps ih =>
      intro i hi
      simp only [applySwapsFwd, List.foldl_cons] at ih ⊢
      have hp := hl p (List.mem_cons_self p ps)
      exact ih (fun q hq => hl q (List.mem_cons_of_mem p hq)) _
        (swapFun_lt hp.1 hp.2 hi)

theorem applySwapsRev_lt {n : Nat} (l : List (Nat × Nat))
    (hl : ∀ p ∈ l, p.1 < n ∧ p.2 < n) : ∀ i, i < n → applySwapsRev l i < n := by
  induction l with
  | nil => intro i hi; exact hi
  | cons p ps ih =>
      intro i hi
      simp only [applySwapsRev, List.foldr_cons] at ih ⊢
      have hp := hl p (List.mem_cons_self p ps)
      exact swapFun_lt hp.1 hp.2
        (ih (fun q hq => hl q (List.mem_cons_of_mem p hq)) i hi)

theorem fySwaps_mem_lt {seed n : Nat} {p : Nat × Nat} (hp : p ∈ fySwaps seed n) :
    p.1 < n ∧ p.2 < n := by
  simp only [fySwaps, List.mem_map, List.mem_range] at hp
  obtain ⟨i, hi, rfl⟩ := hp
  refine ⟨hi, ?_⟩
  have : mix seed i % (i + 1) < i + 1 := Nat.mod_lt _ (Nat.succ_pos i)
  omega

theorem blockPermInv_blockPermFwd (seed n i : Nat) :
    blockPermInv seed n (blockPermFwd seed n i) = i :=
  applySwapsRev_applySwapsFwd (fySwaps seed n) i

theorem blockPermFwd_blockPermInv (seed n i : Nat) :
    blockPermFwd seed n (blockPermInv seed n i) = i :=
  applySwapsFwd_applySwapsRev (fySwaps seed n) i

theorem blockPermFwd_lt {seed n i : Nat} (hi : i < n) : blockPermFwd seed n i < n :=
  applySwapsFwd_lt (fySwaps seed n) (fun _ hp => fySwaps_mem_lt hp) i hi

theorem blockPermInv_lt {seed n i : Nat} (hi : i < n) : blockPermInv seed n i < n :=
  applySwapsRev_lt (fySwaps seed n) (fun _ hp => fySwaps_mem_lt hp) i hi

theorem blockIdx_lt {b len : Nat} (p : Nat → Nat) (hb : 0 < b) (hdvd : b ∣ len)
    (hp : ∀ j, j < b → p j < b) {i : Nat} (hi : i < len) : blockIdx b p i < len := by
  obtain ⟨k, hk⟩ := hdvd
  have hr : i % b < b := Nat.mod_lt i hb
  have h1 : p (i % b) < b := hp _ hr
  have h2 : i / b < k := by
    rw [Nat.div_lt_iff_lt_mul hb, Nat.mul_comm]
    omega
  have h3 : b * (i / b) + b ≤ b * k := by
    have h5 := Nat.mul_le_mul_left b h2
    rw [Nat.mul_succ] at h5
    exact h5
  simp only [blockIdx, hk]
  omega

theorem blockIdx_blockIdx {b : Nat} (p q : Nat → Nat) (hb : 0 < b)
    (hq : ∀ j, j < b → q j < b) (hpq : ∀ j, j < b → p (q j) = j) (i : Nat) :
    blockIdx b p (blockIdx b q i) = i := by
  have hr : i % b < b := Nat.mod_lt i hb
  have hqr : q (i % b) < b := hq _ hr
  simp only [blockIdx]
  rw [Nat.mul_add_div hb, Nat.div_eq_of_lt hqr, Nat.add_zero,
    Nat.mul_add_mod, Nat.mod_eq_of_lt hqr, hpq _ hr, Nat.div_add_mod]

theorem getD_of_lt (l : Buffer) (i : Nat) (h : i < l.length) : l.getD i 0 = l[i] := by
  simp [List.getD_eq_getElem?_getD, List.getElem?_eq_getElem h]

theorem buffer_ext (l₁ l₂ : Buffer) (hlen : l₁.length = l₂.length)
    (h : ∀ i, i < l₂.length → l₁.getD i 0 = l₂.getD i 0) : l₁ = l₂ := by
  apply List.ext_getElem hlen
  intro i h1 h2
  have h3 := h i h2
  rw [getD_of_lt _ _ h1, getD_of_lt _ _ h2] at h3
  exact h3

theorem permApply_length (m : Nat → Nat) (l : Buffer) :
    (permApply m l).length = l.length := by
  simp [permApply]

theorem permApply_getD (m : Nat → Nat) (l : Buffer) (i : Nat) (h : i < l.length) :
    (permApply m l).getD i 0 = l.getD (m i) 0 := by
  have h2 : i < (permApply m l).length := by rw [permApply_length]; exact h
  rw [getD_of_lt _ _ h2]
  simp [permApply]

theorem xorApply_length (s k : Nat) (l : Buffer) :
    (xorApply s k l).length = l.length := by
  simp [xorApply]

theorem xorApply_getD (s k : Nat) (l : Buffer) (i : Nat) (h : i < l.length) :
    (xorApply s k l).getD i 0 = l.getD i 0 ^^^ keyByte s k i := by
  have h2 : i < (xorApply s k l).length := by rw [xorApply_length]; exact h
  rw [getD_of_lt _ _ h2]
  simp [xorApply]

theorem permApply_permApply (m1 m2 : Nat → Nat) (l : Buffer)
    (hb : ∀ i, i < l.length → m2 i < l.length)
    (hc : ∀ i, i < l.length → m1 (m2 i) = i) :
    permApply m2 (permApply m1 l) = l := by
  apply buffer_ext
  · rw [permApply_length, permApply_length]
  intro i hi
  have hi2 : i < (permApply m1 l).length := by rw [permApply_length]; exact hi
  rw [permApply_getD _ _ _ hi2, permApply_getD _ _ _ (hb i hi), hc i hi]

theorem xorApply_xorApply (s k : Nat) (l : Buffer) :
    xorApply s k (xorApply s k l) = l := by
  apply buffer_ext
  · rw [xorApply_length, xorApply_length]
  intro i hi
  have hi2 : i < (xorApply s k l).length := by rw [xorApply_length]; exact hi
  rw [xorApply_getD _ _ _ _ hi2, xorApply_getD _ _ _ _ hi,
    Nat.xor_assoc, Nat.xor_self, Nat.xor_zero]

theorem rotIdx_lt {c : Nat} (a : Nat) (hc : 0 < c) (i : Nat) : rotIdx c a i < c :=
  Nat.mod_lt _ hc

theorem rot_shift_cancel {c : Nat} (x y j : Nat) (hc : 0 < c) (hj : j < c)
    (hxy : (x + y) % c = 0) : ((j + x) % c + y) % c = j := by
  rw [Nat.mod_add_mod, Nat.add_assoc, Nat.add_mod, hxy, Nat.add_zero]
  simp [Nat.mod_eq_of_lt hj]

theorem rotIdx_rotIdx {c : Nat} (a j : Nat) (hc : 0 < c) (hj : j < c) :
    rotIdx c a (rotIdx c ((c - a % c) % c) j) = j := by
  have hr : a % c < c := Nat.mod_lt a hc
  have ha' : (c - a % c) % c < c := Nat.mod_lt _ hc
  simp only [rotIdx]
  rcases Nat.eq_zero_or_pos (a % c) with h0 | hpos
  · have e1 : (c - a % c) % c = 0 := by rw [h0, Nat.sub_zero, Nat.mod_self]
    have e2 : (c - a % c) % c % c = 0 := by rw [e1, Nat.zero_mod]
    rw [e2, h0, Nat.sub_zero]
    exact rot_shift_cancel c c j hc hj (by rw [← Nat.two_mul]; exact Nat.mul_mod_left 2 c)
  · have e1 : (c - a % c) % c = c - a % c := Nat.mod_eq_of_lt (by omega)
    have e2 : (c - a % c) % c % c = c - a % c := by rw [e1, e1]
    rw [e2]
    have e3 : c - (c - a % c) = a % c := by omega
    rw [e3]
    exact rot_shift_cancel (a % c) (c - a % c) j hc hj
      (by rw [Nat.add_sub_cancel' (Nat.le_of_lt hr), Nat.mod_self])

theorem Operation.apply_length (c : Nat) (op : Operation) (l : Buffer) :
    (op.apply c l).length = l.length := by
  cases op <;> simp [Operation.apply, permApply_length, xorApply_length]

theorem apply_invert_apply (c : Nat) (op : Operation) (buf : Buffer)
    (hc0 : 0 < c) (hdvd : c ∣ buf.length) (hv : op.valid c buf.length) :
    (op.invert c).apply c (op.apply c buf) = buf := by
  cases op with
  | permuteBlock s b inv =>
      obtain ⟨hb, hbd⟩ := hv
      cases inv with
      | false =>
          exact permApply_permApply (blockIdx b (blockPermFwd s b))
            (blockIdx b (blockPermInv s b)) buf
            (fun i hi => blockIdx_lt _ hb hbd (fun j hj => blockPermInv_lt hj) hi)
            (fun i _ => blockIdx_blockIdx _ _ hb (fun j hj => blockPermInv_lt hj)
              (fun j _ => blockPermFwd_blockPermInv s b j) i)
      | true =>
          exact permApply_permApply (blockIdx b (blockPermInv s b))
            (blockIdx b (blockPermFwd s b)) buf
            (fun i hi => blockIdx_lt _ hb hbd (fun j hj => blockPermFwd_lt hj) hi)
            (fun i _ => blockIdx_blockIdx _ _ hb (fun j hj => blockPermFwd_lt hj)
              (fun j _ => blockPermInv_blockPermFwd s b j) i)
  | xorMask s k => exact xorApply_xorApply s k buf
  | channelRotate a =>
      exact permApply_permApply (blockIdx c (rotIdx c a))
        (blockIdx c (rotIdx c ((c - a % c) % c))) buf
        (fun i hi => blockIdx_lt _ hc0 hdvd (fun j _ => rotIdx_lt _ hc0 j) hi)
        (fun i _ => blockIdx_blockIdx _ _ hc0 (fun j _ => rotIdx_lt _ hc0 j)
          (fun j hj => rotIdx_rotIdx a j hc0 hj) i)

theorem applySeq_append (c : Nat) (l1 l2 : List Operation) (buf : Buffer) :
    applySeq c (l1 ++ l2) buf = applySeq c l2 (applySeq c l1 buf) := by
  simp [applySeq, List.foldl_append]

theorem applySeq_length (c : Nat) (ops : List Operation) (buf : Buffer) :
    (applySeq c ops buf).length = buf.length := by
  induction ops generalizing buf with
  | nil => rfl
  | cons op rest ih =>
      show (applySeq c rest (op.apply c buf)).length = buf.length
      rw [ih, Operation.apply_length]

theorem applySeq_invertSeq (c : Nat) (ops : List Operation) (buf : Buffer)
    (hc : 0 < c) (hdvd : c ∣ buf.length)
    (hv : ∀ op ∈ ops, op.valid c buf.length) :
    applySeq c (invertSeq c ops) (applySeq c ops buf) = buf := by
  induction ops generalizing buf with
  | nil => rfl
  | cons op rest ih =>
      have hlen : (op.apply c buf).length = buf.length := Operation.apply_length c op buf
      have hdvd2 : c ∣ (op.apply c buf).length := by rw [hlen]; exact hdvd
      have hv2 : ∀ o ∈ rest, o.valid c (op.apply c buf).length := by
        intro o ho
        rw [hlen]
        exact hv o (List.mem_cons_of_mem op ho)
      have h1 : invertSeq c (op :: rest) = invertSeq c rest ++ [op.invert c] := by
        simp [invertSeq]
      rw [h1, applySeq_append]
      have e : applySeq c (op :: rest) buf = applySeq c rest (op.apply c buf) := rfl
      rw [e, ih (op.apply c buf) hdvd2 hv2]
      show (op.invert c).apply c (op.apply c buf) = buf
      exact apply_invert_apply c op buf hc hdvd (hv op (List.mem_cons_self op rest))

theorem countP_persisted_add_failed (l : List VariantResult) :
    l.countP VariantResult.isPersisted + l.countP VariantResult.isFailed = l.length := by
  induction l with
  | nil => rfl
  | cons r rest ih =>
      cases r <;>
        simp [List.countP_cons, VariantResult.isPersisted, VariantResult.isFailed] <;>
        omega

theorem firstPull_eq_none (pulls : Nat → Option PullPayload) :
    ∀ n start, (∀ a, start ≤ a → a < start + n → pulls a = none) →
      firstPull pulls start n = none := by
  intro n
  induction n with
  | zero => intro start _; rfl
  | succ m ih =>
      intro start h
      have h0 : pulls start = none := h start le_rfl (by omega)
      simp only [firstPull, h0]
      exact ih (start + 1) (fun a h1 h2 => h a (by omega) (by omega))

theorem firstPull_eq_some (pulls : Nat → Option PullPayload) (n start : Nat)
    (x : PullPayload) (h : pulls start = some x) :
    firstPull pulls start (n + 1) = some x := by
  simp only [firstPull, h]

/-- C1: for every operation kind in the closed set (PermuteBlock, XorMask,
ChannelRotate), every parameter value within that kind's declared domain,
and every buffer of compatible shape, `apply(invert(op), apply(op, buffer))`
equals `buffer`. -/
theorem c1_operation_round_trip (channels : Nat) (op : Operation) (buf : Buffer)
    (hc : 0 < channels) (hshape : channels ∣ buf.length)
    (hv : op.valid channels buf.length) :
    (op.invert channels).apply channels (op.apply channels buf) = buf :=
  apply_invert_apply channels op buf hc hshape hv

/-- C1 witness: the round-trip law instantiated at a concrete seeded block
permutation on a six-byte three-channel buffer. -/
theorem c1_operation_round_trip_witness :
    ((Operation.permuteBlock 12345 3 false).invert 3).apply 3
      ((Operation.permuteBlock 12345 3 false).apply 3 [10, 20, 30, 40, 50, 60]) =
      [10, 20, 30, 40, 50, 60] :=
  c1_operation_round_trip 3 (Operation.permuteBlock 12345 3 false)
    [10, 20, 30, 40, 50, 60] (by decide) (by decide) (by decide)

/-- C2: for a generated Instruction Sequence and a source buffer, the
variant's stored bytes are exactly the in-order forward application, and
applying the inverses in reverse order to the stored bytes reproduces the
source buffer exactly. -/
theorem c2_sequence_round_trip (channels : Nat) (ops : List Operation) (buf : Buffer)
    (hc : 0 < channels) (hshape : channels ∣ buf.length)
    (hv : ∀ op ∈ ops, op.valid channels buf.length) :
    (mkVariantFrom channels ops buf).bytes = applySeq channels ops buf ∧
    applySeq channels (invertSeq channels ops) ((mkVariantFrom channels ops buf).bytes) =
      buf :=
  ⟨rfl, applySeq_invertSeq channels ops buf hc hshape hv⟩

/-- C2 witness: the spec scenario - a 4x4-pixel 3-channel image and the
sequence `[XorMask(seed=7,keyLength=3), ChannelRotate(amount=1)]`;
forward-apply then reverse-apply returns the identical 48-byte buffer. -/
theorem c2_sequence_round_trip_witness :
    applySeq 3 (invertSeq 3 [Operation.xorMask 7 3, Operation.channelRotate 1])
      ((mkVariantFrom 3 [Operation.xorMask 7 3, Operation.channelRotate 1]
        scenarioBuf).bytes) = scenarioBuf ∧
    scenarioBuf.length = 48 :=
  ⟨(c2_sequence_round_trip 3 [Operation.xorMask 7 3, Operation.channelRotate 1]
      scenarioBuf (by decide) (by decide) (by decide)).2, by decide⟩

/-- C3: generation produces exactly `variantCount` outcomes (the system
default being 100); every requested variant is accounted for as either a
persisted variant or a reported failure, and a variant whose persistence
fails within the retry bound appears as a failed unit, never silently
dropped. -/
theorem c3_generate_count (img : Image) (variantCount seed : Nat)
    (persistOk : Nat → Nat → Bool) :
    (generate img variantCount seed persistOk).length = variantCount ∧
    (generate img variantCount seed persistOk).countP VariantResult.isPersisted +
      (generate img variantCount seed persistOk).countP VariantResult.isFailed =
        variantCount ∧
    defaultVariantCount = 100 ∧
    (∀ idx, idx < variantCount → attemptPersist persistOk idx = false →
      VariantResult.failed idx ∈ generate img variantCount seed persistOk) := by
  refine ⟨?_, ?_, rfl, ?_⟩
  · simp [generate]
  · rw [countP_persisted_add_failed]
    simp [generate]
  · intro idx hidx hfail
    simp only [generate, List.mem_map]
    exact ⟨idx, List.mem_range.mpr hidx, by rw [hfail]; simp⟩

/-- C3 witness: a run of five variants against an oracle on which every
persistence attempt fails still yields five outcomes, with index 0
reported as a failed unit. -/
theorem c3_generate_count_witness :
    (generate img443 5 0 allFailPersist).length = 5 ∧
    VariantResult.failed 0 ∈ generate img443 5 0 allFailPersist :=
  ⟨(c3_generate_count img443 5 0 allFailPersist).1,
   (c3_generate_count img443 5 0 allFailPersist).2.2.2 0 (by decide) (by decide)⟩

/-- C4: the operation count of a generated variant is drawn from
`opCountRange`, bounded below by the fixed minimum 100 and above by the
image's pixel count. -/
theorem c4_opcount_in_range (img : Image) (seed : Nat)
    (h : minOpCount ≤ img.pixelCount) :
    minOpCount ≤ (mkVariant img seed).ops.length ∧
    (mkVariant img seed).ops.length ≤ img.pixelCount := by
  have e : (mkVariant img seed).ops.length = drawOpCount seed img.pixelCount := by
    simp [mkVariant, mkVariantFrom]
  rw [e]
  simp only [drawOpCount, minOpCount] at h ⊢
  have hm : mix seed 0 % (img.pixelCount - 100 + 1) < img.pixelCount - 100 + 1 :=
    Nat.mod_lt _ (Nat.succ_pos _)
  omega

/-- C4 witness: a 10x10-pixel image (pixel count 100) with seed 7 yields a
variant whose operation count lies in [100, 100]. -/
theorem c4_opcount_in_range_witness :
    minOpCount ≤ (mkVariant img1010 7).ops.length ∧
    (mkVariant img1010 7).ops.length ≤ img1010.pixelCount :=
  c4_opcount_in_range img1010 7 (by decide)

/-- C5: verification is deterministic - two runs of `verify` on the same
sequence, modified buffer and original reference yield the same verdict. -/
theorem c5_verify_deterministic (channels : Nat) (ops : List Operation)
    (modified : Buffer) (ref : OriginalRef) (v1 v2 : Bool × CompareMethod)
    (h1 : v1 = verify channels ops modified ref)
    (h2 : v2 = verify channels ops modified ref) : v1 = v2 :=
  h1.trans h2.symm

/-- C5 witness: two concrete runs on a rotated three-byte buffer both
evaluate to a successful exact-bytes verdict. -/
theorem c5_verify_deterministic_witness :
    ((true, CompareMethod.exactBytes) : Bool × CompareMethod) =
      (true, CompareMethod.exactBytes) :=
  c5_verify_deterministic 3 [Operation.channelRotate 1] [1, 2, 3]
    (OriginalRef.exact [2, 3, 1]) (true, CompareMethod.exactBytes)
    (true, CompareMethod.exactBytes) (by decide) (by decide)

/-- C6: an operation whose parameters violate their declared domain makes
variant construction fail with a `ConfigurationError` at generation time,
and no variant is persisted for it. -/
theorem c6_invalid_op_generation (img : Image) (ops : List Operation)
    (h : ∃ op ∈ ops, ¬ op.valid img.channels img.bytes.length) :
    generateVariant img ops = Except.error GenError.configurationError ∧
    persistedVariants (generateVariant img ops) = [] := by
  have hall : ops.all (fun op => decide (op.valid img.channels img.bytes.length)) =
      false := by
    obtain ⟨op, hop, hnv⟩ := h
    refine Bool.eq_false_iff.mpr fun htrue => ?_
    rw [List.all_eq_true] at htrue
    exact hnv (of_decide_eq_true (htrue op hop))
  constructor
  · simp [generateVariant, hall]
  · simp [generateVariant, hall, persistedVariants]

/-- C6 witness: the spec scenario - a PermuteBlock whose blockSize 5 does
not divide the 4x4x3 image's buffer fails generation with
`ConfigurationError` and persists nothing. -/
theorem c6_invalid_op_generation_witness :
    generateVariant img443 [Operation.permuteBlock 1 5 false] =
      Except.error GenError.configurationError ∧
    persistedVariants (generateVariant img443 [Operation.permuteBlock 1 5 false]) =
      [] :=
  c6_invalid_op_generation img443 [Operation.permuteBlock 1 5 false] (by decide)

/-- C7: a comparison mismatch yields the verdict `VERIFIED_FAILED`, while a
Pull that fails on every attempt within the retry bound yields
`VERIFICATION_ERROR`; the two verdicts are distinct. -/
theorem c7_verdict_classification (channels : Nat)
    (pulls : Nat → Option PullPayload) :
    ((∀ a, a < pullRetryBound → pulls a = none) →
      runVerification channels pulls = Verdict.verificationError) ∧
    (∀ ops modified ref, pulls 0 = some (ops, modified, ref) →
      (verify channels ops modified ref).1 = false →
      runVerification channels pulls = Verdict.verifiedFailed) ∧
    Verdict.verificationError ≠ Verdict.verifiedFailed := by
  refine ⟨?_, ?_, by decide⟩
  · intro h
    have hn : firstPull pulls 0 pullRetryBound = none :=
      firstPull_eq_none pulls pullRetryBound 0 (fun a _ h2 => h a (by omega))
    simp [runVerification, hn]
  · intro ops modified ref hp hf
    have hs : firstPull pulls 0 pullRetryBound = some (ops, modified, ref) :=
      firstPull_eq_some pulls 2 0 (ops, modified, ref) hp
    simp [runVerification, hs, hf]

/-- C7 witness: three straight timeouts yield `VERIFICATION_ERROR`, and a
successful Pull whose payload mismatches yields `VERIFIED_FAILED`. -/
theorem c7_verdict_classification_witness :
    runVerification 3 noPulls = Verdict.verificationError ∧
    runVerification 3 onePullBad = Verdict.verifiedFailed :=
  ⟨(c7_verdict_classification 3 noPulls).1 (fun _ _ => rfl),
   (c7_verdict_classification 3 onePullBad).2.1 [] [0] (OriginalRef.exact [1])
     (by decide) (by decide)⟩

/-- C8: reporting a verdict is idempotent by variant identity - sending the
same Report twice leaves the status unchanged after the first application,
and a Report for a variant already in a `VERIFIED_*` status is ignored. -/
theorem c8_report_idempotent (s : Status) (v : Verdict) :
    applyReport (applyReport s v) v = applyReport s v ∧
    (s.isVerifiedFinal = true → applyReport s v = s) := by
  cases s <;> cases v <;>
    simp [applyReport, Status.isVerifiedFinal, verdictStatus]

/-- C8 witness: a duplicate `VERIFIED_OK` report on a fresh variant is a
no-op after the first application, and a report against an
already-`VERIFIED_OK` variant is ignored. -/
theorem c8_report_idempotent_witness :
    applyReport (applyReport Status.generated Verdict.verifiedOk) Verdict.verifiedOk =
      applyReport Status.generated Verdict.verifiedOk ∧
    applyReport Status.verifiedOk Verdict.verifiedFailed = Status.verifiedOk :=
  ⟨(c8_report_idempotent Status.generated Verdict.verifiedOk).1,
   (c8_report_idempotent Status.verifiedOk Verdict.verifiedFailed).2 (by decide)⟩

/-- C9: a file strictly larger than 100*1024*1024 bytes makes the frontend
`uploadFile` report the error message, issue no upload request, and leave
the uploading state unchanged. -/
theorem c9_oversize_upload_rejected (fileSize : Nat) (uploading0 : Bool)
    (serverResult : Except (Option String) Unit)
    (h : fileSize > 100 * 1024 * 1024) :
    uploadFile fileSize uploading0 serverResult =
      { errorMsg := some "File size must be less than 100MB"
        requestIssued := false
        uploading := uploading0 } := by
  simp [uploadFile, h]

/-- C9 witness: a file one byte over the limit is rejected without a
request, with the uploading state still false. -/
theorem c9_oversize_upload_rejected_witness :
    uploadFile 104857601 false (Except.ok ()) =
      { errorMsg := some "File size must be less than 100MB"
        requestIssued := false
        uploading := false } :=
  c9_oversize_upload_rejected 104857601 false (Except.ok ()) (by decide)

/-- C10: every falsy byte-count input (0, null, undefined) makes
`formatFileSize` return the string "0 B" without entering the logarithmic
unit computation. -/
theorem c10_falsy_size_zero (bytes : Option Nat) (h : jsFalsy bytes = true) :
    formatFileSize bytes = "0 B" := by
  simp [formatFileSize, h]

/-- C10 witness: both the null/undefined input and the zero input format
as "0 B". -/
theorem c10_falsy_size_zero_witness :
    formatFileSize none = "0 B" ∧ formatFileSize (some 0) = "0 B" :=
  ⟨c10_falsy_size_zero none (by decide), c10_falsy_size_zero (some 0) (by decide)⟩
